import Mathlib

/-!
Verification of the libcamera per-frame capture request lifecycle and the
IPC / process-supervision layer, against a shallow embedding of
`src/libcamera/request.cpp` and of the Message Transport / Process
Supervisor contracts.

Object identities (`Stream *`, `Buffer *`, `Request *` pointers) are
modelled as natural numbers.  Machine error codes are `Int` values using
the Linux errno numbers (`EINVAL = 22`, `EEXIST = 17`).  Fatal assertions
(`ASSERT` in the C++ source) are modelled by returning `none`.
-/

namespace LibCamera

/-- Linux errno used by `Request::addBuffer` and `Request::prepare`. -/
def EINVAL : Int := 22

/-- Linux errno used by `Request::addBuffer` when a stream already has a buffer. -/
def EEXIST : Int := 17

/-- Buffer completion status.  Modelled from the spec: `buffer.h` is not part
of the corpus; the spec gives status ∈ \x7bSuccess, Cancelled\x7d and
`request.cpp` tests `Buffer::BufferCancelled`. -/
inductive BufferStatus where
  | BufferSuccess
  | BufferCancelled
deriving DecidableEq

/-- Request completion status (`Request::Status` in `request.h`). -/
inductive Status where
  | RequestPending
  | RequestComplete
  | RequestCancelled
deriving DecidableEq

/-- A buffer.  Modelled from the spec: `buffer.h` is not part of the corpus;
attributes follow spec §3 (associated stream, status) plus the owning-request
mark written by `Buffer::setRequest`.  `id` models the `Buffer *` pointer
identity used by the `pending_` set, `stream` models `Buffer::stream()`
(`none` is a null stream reference), `request` models the owning `Request *`
(`none` is nullptr). -/
structure Buffer where
  id : Nat
  stream : Option Nat
  status : BufferStatus
  request : Option Nat
deriving DecidableEq

/-- `Buffer::setRequest`: records which request the buffer belongs to. -/
def Buffer.setRequest (b : Buffer) (r : Option Nat) : Buffer :=
  { b with request := r }

/-- State of a `Request` (`request.h` / `request.cpp`): `self` models the
`this` pointer, `cookie` the opaque application cookie, `bufferMap` the
`std::map<Stream *, Buffer *> bufferMap_` as an association list with
distinct keys, `pending` the `std::set<Buffer *> pending_` of outstanding
buffers (by buffer identity). -/
structure Request where
  self : Nat
  cookie : Nat
  bufferMap : List (Nat × Buffer)
  status : Status
  cancelled : Bool
  pending : Finset Nat
deriving DecidableEq

/-- `Request::Request(camera, cookie)`: status starts `RequestPending`,
`cancelled_` false, both containers empty (request.cpp lines 57-61). -/
def Request.init (self cookie : Nat) : Request :=
  ⟨self, cookie, [], Status.RequestPending, false, ∅⟩

/-- Lookup in the stream-to-buffer association list (`bufferMap_.find`). -/
def findStream (s : Nat) : List (Nat × Buffer) → Option Buffer
  | [] => none
  | (k, b) :: rest => if k = s then some b else findStream s rest

/-- `Request::addBuffer` (request.cpp lines 111-128): `-EINVAL` if the buffer
has no stream, `-EEXIST` if the stream already has a buffer in this request,
else insert into `bufferMap_` and return 0. -/
def Request.addBuffer (r : Request) (buffer : Buffer) : Int × Request :=
  match buffer.stream with
  | none => (-EINVAL, r)
  | some stream =>
    match findStream stream r.bufferMap with
    | some _ => (-EEXIST, r)
    | none => (0, { r with bufferMap := r.bufferMap ++ [(stream, buffer)] })

/-- `Request::findBuffer` (request.cpp lines 145-152): the buffer bound to a
stream, or `none` (nullptr) if the stream is not part of this request. -/
def Request.findBuffer (r : Request) (stream : Nat) : Option Buffer :=
  findStream stream r.bufferMap

/-- `Request::hasPendingBuffers`: `!pending_.empty()`. -/
def Request.hasPendingBuffers (r : Request) : Bool :=
  decide (r.pending ≠ ∅)

/-- `Request::prepare` (request.cpp lines 189-203): `-EINVAL` if `bufferMap_`
is empty; otherwise every bound buffer is marked with `setRequest(this)` and
inserted into `pending_`, returning 0. -/
def Request.prepare (r : Request) : Int × Request :=
  if r.bufferMap.isEmpty then
    (-EINVAL, r)
  else
    (0, { r with
          bufferMap := r.bufferMap.map (fun p => (p.1, p.2.setRequest (some r.self))),
          pending := r.pending ∪ (r.bufferMap.map (fun p => p.2.id)).toFinset })

/-- `Request::complete` (request.cpp lines 212-216): `ASSERT(!hasPendingBuffers())`
(modelled as `none`), then status becomes `RequestCancelled` if the cancelled
flag was raised, else `RequestComplete`. -/
def Request.complete (r : Request) : Option Request :=
  if r.hasPendingBuffers then
    none
  else
    some { r with status := if r.cancelled then Status.RequestCancelled
                            else Status.RequestComplete }

/-- `Request::completeBuffer` (request.cpp lines 231-242): erase the buffer
from `pending_` with `ASSERT(ret == 1)` (modelled as `none` when the buffer is
not in the set), clear the buffer's request mark, raise the cancelled flag if
the buffer's status is `BufferCancelled`, and return `!hasPendingBuffers()`.
The result carries the return value, the new request state and the updated
buffer.  `afterCompleteBuffer` is the request state after the erase and the
cancelled-flag update. -/
def Request.afterCompleteBuffer (r : Request) (buffer : Buffer) : Request :=
  { r with
    pending := r.pending.erase buffer.id,
    cancelled := r.cancelled || decide (buffer.status = BufferStatus.BufferCancelled) }

def Request.completeBuffer (r : Request) (buffer : Buffer) :
    Option (Bool × Request × Buffer) :=
  if buffer.id ∈ r.pending then
    some (!(r.afterCompleteBuffer buffer).hasPendingBuffers,
          r.afterCompleteBuffer buffer, buffer.setRequest none)
  else
    none

/-- The operations of the request lifecycle, for stating the status-transition
invariant. -/
inductive Op where
  | addBuffer (b : Buffer)
  | prepare
  | completeBuffer (b : Buffer)
  | complete

/-- One lifecycle operation applied to a request; `none` models hitting a
fatal `ASSERT`. -/
def Request.step (r : Request) : Op → Option Request
  | Op.addBuffer b => some (r.addBuffer b).2
  | Op.prepare => some (r.prepare).2
  | Op.completeBuffer b => (r.completeBuffer b).map (fun x => x.2.1)
  | Op.complete => r.complete

/-- A sequence of `addBuffer` calls (failed calls leave the request unchanged,
as in the source). -/
def Request.applyAdds (r : Request) : List Buffer → Request
  | [] => r
  | b :: bs => Request.applyAdds (r.addBuffer b).2 bs

/-- A sequence of `completeBuffer` calls, propagating the request state;
`none` if any call hits the fatal assertion. -/
def Request.completeBuffers (r : Request) : List Buffer → Option Request
  | [] => some r
  | b :: bs =>
    match r.completeBuffer b with
    | none => none
    | some x => Request.completeBuffers x.2.1 bs

/-- Modelled from the spec: the documented request lifecycle (spec §3
Lifecycle, §4.1, §7) — the pipeline-handler code that drives `Request` is not
part of the corpus.  A request is created, buffers are added, `prepare()` is
called at submission; a request whose `prepare()` fails is never queued, so
no buffer completions and no `complete()` happen for it; otherwise hardware
completions call `completeBuffer` and, when the last one returns true, the
pipeline calls `complete()`. -/
def Request.lifecycle (self cookie : Nat) (adds completions : List Buffer) :
    Option Request :=
  if ((Request.applyAdds (Request.init self cookie) adds).prepare).1 ≠ 0 then
    some ((Request.applyAdds (Request.init self cookie) adds).prepare).2
  else
    match ((Request.applyAdds
              (Request.init self cookie) adds).prepare).2.completeBuffers completions with
    | none => none
    | some r2 =>
      if r2.hasPendingBuffers then
        some r2
      else
        r2.complete

/-!
Message Transport (IPCUnixSocket).  The implementation
(`ipc_unixsocket.cpp` / `.h`) is not part of the corpus — only its test
(`test/ipc/unixsocket.cpp`) is — so the transport is modelled from the spec
(§3 Message/Payload, §4.2, §6 wire format).
-/

/-- A message payload (`IPCUnixSocket::Payload`): a byte sequence and an
ordered list of transferable file descriptors.  Bytes and descriptors are
modelled as naturals. -/
structure Payload where
  data : List Nat
  fds : List Nat
deriving DecidableEq

/-- One framed message on the wire.  Modelled from the spec: fixed-size
header announcing byte-length and descriptor-count (u32 each), followed by
the byte payload; descriptors travel out-of-band and are associated with the
message by position in arrival order. -/
structure WireMessage where
  lengthHeader : Nat
  numFdsHeader : Nat
  bytes : List Nat
  ancillaryFds : List Nat
deriving DecidableEq

/-- The range of a u32 header field. -/
def u32 : Nat := 2 ^ 32

/-- Modelled from the spec: framing of a payload into a wire message; the
two header fields are 32-bit. -/
def framePayload (p : Payload) : WireMessage :=
  ⟨p.data.length % u32, p.fds.length % u32, p.data, p.fds⟩

/-- A channel endpoint as seen by the peer: the ordered queue of framed
messages sent and not yet received.  Modelled from the spec: a Channel
delivers messages in the exact order sent. -/
structure Channel where
  queue : List WireMessage
deriving DecidableEq

namespace IPCUnixSocket

/-- Modelled from the spec: `IPCUnixSocket::send` — fails with `-EINVAL` if
the payload is empty (no bytes and no descriptors), which the test
`UnixSocketTest::testEmptyFail` requires; otherwise the framed message is
appended to the channel, atomically from the caller's perspective. -/
def send (ch : Channel) (p : Payload) : Int × Channel :=
  if p.data.isEmpty && p.fds.isEmpty then
    (-EINVAL, ch)
  else
    (0, ⟨ch.queue ++ [framePayload p]⟩)

/-- Modelled from the spec: `IPCUnixSocket::receive` — parses exactly one
framed message per call in arrival order; fails (Protocol error, `none`) if
the header is malformed or truncated, or no message is available. -/
def receive (ch : Channel) : Option (Payload × Channel) :=
  match ch.queue with
  | [] => none
  | w :: rest =>
    if w.lengthHeader = w.bytes.length ∧ w.numFdsHeader = w.ancillaryFds.length then
      some (⟨w.bytes, w.ancillaryFds⟩, ⟨rest⟩)
    else
      none

end IPCUnixSocket

/-!
Process Supervisor.  The implementation (`process.cpp` / `process.h`) is not
part of the corpus — only its test (`test/log/log_process.cpp`) is — so the
supervisor is modelled from the spec (§2, §4.3, §6 exit statuses).
-/

/-- Exit status carried by a `finished` event: a normal exit propagates the
exit code verbatim; an exit by signal is reported distinctly. -/
inductive ExitStatus where
  | NormalExit (code : Int)
  | SignalExit (sig : Int)
deriving DecidableEq

/-- Execution state of a supervised process (spec §3 Supervised Process). -/
inductive ProcState where
  | NotStarted
  | Running
  | Exited (st : ExitStatus)
deriving DecidableEq

/-- How the child actually terminated, as observed by the process-wide
reaper. -/
inductive ChildOutcome where
  | exited (code : Int)
  | signalled (sig : Int)
deriving DecidableEq

/-- The `finished`-event status for a child termination outcome. -/
def outcomeStatus : ChildOutcome → ExitStatus
  | ChildOutcome.exited c => ExitStatus.NormalExit c
  | ChildOutcome.signalled s => ExitStatus.SignalExit s

/-- A supervised process together with the trace of `finished` events raised
for it (spec §4.3: exactly one `finished` event per started process). -/
structure Process where
  state : ProcState
  finishedEvents : List ExitStatus
deriving DecidableEq

/-- A process handle before `start`. -/
def Process.mkNew : Process :=
  ⟨ProcState.NotStarted, []⟩

/-- Modelled from the spec: `Process::start` — forks and execs, failing when
the child image cannot be launched (`execOk = false`), returning immediately;
a failed start leaves the process not started and raises nothing. -/
def Process.start (p : Process) (execOk : Bool) : Bool × Process :=
  if execOk then
    (true, { p with state := ProcState.Running })
  else
    (false, p)

/-- Modelled from the spec: the asynchronous reaper — on child-termination
notification of a running process it records the exit state and raises the
`finished` event carrying `NormalExit code` or `SignalExit sig`; for a
process that is not running (never started, or already reaped) it raises
nothing. -/
def Process.reap (p : Process) (o : ChildOutcome) : Process :=
  match p.state with
  | ProcState.Running =>
    { state := ProcState.Exited (outcomeStatus o),
      finishedEvents := p.finishedEvents ++ [outcomeStatus o] }
  | _ => p

/-! Helper lemmas. -/

theorem hasPendingBuffers_false_iff (r : Request) :
    r.hasPendingBuffers = false ↔ r.pending = ∅ := by
  simp [Request.hasPendingBuffers]

theorem afterCompleteBuffer_pending (r : Request) (b : Buffer) :
    (r.afterCompleteBuffer b).pending = r.pending.erase b.id := rfl

theorem afterCompleteBuffer_cancelled (r : Request) (b : Buffer) :
    (r.afterCompleteBuffer b).cancelled
      = (r.cancelled || decide (b.status = BufferStatus.BufferCancelled)) := rfl

theorem completeBuffer_eq_some (r : Request) (b : Buffer) (h : b.id ∈ r.pending) :
    r.completeBuffer b =
      some (!(r.afterCompleteBuffer b).hasPendingBuffers,
            r.afterCompleteBuffer b, b.setRequest none) := by
  simp [Request.completeBuffer, h]

theorem completeBuffer_eq_none (r : Request) (b : Buffer) (h : b.id ∉ r.pending) :
    r.completeBuffer b = none := by
  simp [Request.completeBuffer, h]

/-- Claim C1: for every request and every buffer in its outstanding (pending)
set, `completeBuffer` removes that buffer from the outstanding set, flags the
request as cancelled iff that buffer's status is Cancelled (a previously
raised cancelled flag stays raised), and returns true exactly when the
outstanding set is empty after the removal. -/
theorem completeBuffer_spec (r : Request) (b : Buffer) (h : b.id ∈ r.pending) :
    (r.completeBuffer b).isSome = true ∧
    ∀ done r' bOut, r.completeBuffer b = some (done, r', bOut) →
      r'.pending = r.pending.erase b.id ∧
      b.id ∉ r'.pending ∧
      (r'.cancelled = true ↔
        (r.cancelled = true ∨ b.status = BufferStatus.BufferCancelled)) ∧
      (done = true ↔ r'.pending = ∅) ∧
      bOut = b.setRequest none := by
  refine ⟨by simp [completeBuffer_eq_some r b h], ?_⟩
  intro done r' bOut heq
  rw [completeBuffer_eq_some r b h] at heq
  injection heq with heq1
  injection heq1 with hd heq2
  injection heq2 with hr hb
  subst hd; subst hr; subst hb
  refine ⟨rfl, Finset.not_mem_erase _ _, ?_, ?_, rfl⟩
  · simp [afterCompleteBuffer_cancelled]
  · simp [Request.hasPendingBuffers, afterCompleteBuffer_pending]

/-- Witness for C1 at a concrete request holding one outstanding buffer. -/
theorem completeBuffer_spec_witness :
    (Buffer.mk 5 (some 1) BufferStatus.BufferSuccess (some 0)).id
        ∈ (Request.mk 0 7 [] Status.RequestPending false {5}).pending ∧
    ((Request.mk 0 7 [] Status.RequestPending false {5}).completeBuffer
        (Buffer.mk 5 (some 1) BufferStatus.BufferSuccess (some 0))).isSome = true :=
  ⟨by decide, (completeBuffer_spec _ _ (by decide)).1⟩

/-- Claim C6: `completeBuffer` on a buffer in the outstanding set never hits
the fatal assertion; on a buffer not in the outstanding set the assertion
fires (modelled as `none`) rather than the call being silently ignored; in
particular a second call for the same buffer necessarily hits the
assertion. -/
theorem completeBuffer_assert_spec (r : Request) (b : Buffer) :
    (b.id ∈ r.pending → (r.completeBuffer b).isSome = true) ∧
    (b.id ∉ r.pending → r.completeBuffer b = none) ∧
    (∀ done r' bOut, r.completeBuffer b = some (done, r', bOut) →
      ∀ b2 : Buffer, b2.id = b.id → r'.completeBuffer b2 = none) := by
  refine ⟨?_, ?_, ?_⟩
  · intro h; simp [completeBuffer_eq_some r b h]
  · intro h; exact completeBuffer_eq_none r b h
  · intro done r' bOut heq b2 hid
    by_cases hm : b.id ∈ r.pending
    · rw [completeBuffer_eq_some r b hm] at heq
      injection heq with heq1
      injection heq1 with hd heq2
      injection heq2 with hr hb
      subst hr
      refine completeBuffer_eq_none _ _ ?_
      rw [hid, afterCompleteBuffer_pending]
      exact Finset.not_mem_erase _ _
    · rw [completeBuffer_eq_none r b hm] at heq
      exact absurd heq (by simp)

/-- Witness for C6: the second completion of the same buffer hits the
assertion. -/
theorem completeBuffer_assert_witness :
    ((Request.mk 0 7 [] Status.RequestPending false {5}).completeBuffer
        (Buffer.mk 5 (some 1) BufferStatus.BufferSuccess (some 0))
      = some (true, Request.mk 0 7 [] Status.RequestPending false ∅,
              Buffer.mk 5 (some 1) BufferStatus.BufferSuccess none)) ∧
    (Buffer.mk 5 (some 1) BufferStatus.BufferSuccess none).id
      = (Buffer.mk 5 (some 1) BufferStatus.BufferSuccess (some 0)).id ∧
    (Request.mk 0 7 [] Status.RequestPending false ∅).completeBuffer
        (Buffer.mk 5 (some 1) BufferStatus.BufferSuccess none) = none :=
  ⟨by decide, by decide,
   (completeBuffer_assert_spec
       (Request.mk 0 7 [] Status.RequestPending false {5})
       (Buffer.mk 5 (some 1) BufferStatus.BufferSuccess (some 0))).2.2
     true (Request.mk 0 7 [] Status.RequestPending false ∅)
     (Buffer.mk 5 (some 1) BufferStatus.BufferSuccess none)
     (by decide)
     (Buffer.mk 5 (some 1) BufferStatus.BufferSuccess none)
     (by decide)⟩

theorem completeBuffers_cons_eq (r : Request) (b : Buffer) (bs : List Buffer)
    (h : b.id ∈ r.pending) :
    r.completeBuffers (b :: bs) = (r.afterCompleteBuffer b).completeBuffers bs := by
  simp [Request.completeBuffers, completeBuffer_eq_some r b h]

theorem completeBuffers_cancelled_mono :
    ∀ (bufs : List Buffer) (r r' : Request), r.completeBuffers bufs = some r' →
      (r.cancelled = true ∨ ∃ b ∈ bufs, b.status = BufferStatus.BufferCancelled) →
      r'.cancelled = true := by
  intro bufs
  induction bufs with
  | nil =>
    intro r r' h hc
    simp [Request.completeBuffers] at h
    subst h
    rcases hc with hc | ⟨b, hb, _⟩
    · exact hc
    · exact absurd hb (List.not_mem_nil _)
  | cons b bs ih =>
    intro r r' h hc
    by_cases hm : b.id ∈ r.pending
    · rw [completeBuffers_cons_eq r b bs hm] at h
      refine ih (r.afterCompleteBuffer b) r' h ?_
      rcases hc with hc | ⟨b2, hb2, hst⟩
      · exact Or.inl (by simp [afterCompleteBuffer_cancelled, hc])
      · rcases List.mem_cons.mp hb2 with hhd | htl
        · subst hhd
          exact Or.inl (by simp [afterCompleteBuffer_cancelled, hst])
        · exact Or.inr ⟨b2, htl, hst⟩
    · rw [show r.completeBuffers (b :: bs) = none by
            simp [Request.completeBuffers, completeBuffer_eq_none r b hm]] at h
      exact absurd h (by simp)

/-- Claim C2: once the outstanding set is empty, `complete()` sets the status
to Cancelled exactly when the cancelled flag was raised, else Complete; in
particular, if some buffer of the request completed with Cancelled status,
the status after `complete()` is Cancelled regardless of the other
buffers. -/
theorem complete_spec :
    (∀ r : Request, r.pending = ∅ →
       r.complete = some { r with status := if r.cancelled then Status.RequestCancelled
                                            else Status.RequestComplete })
  ∧ (∀ (r : Request) (bufs : List Buffer) (r' : Request),
       r.completeBuffers bufs = some r' →
       (∃ b ∈ bufs, b.status = BufferStatus.BufferCancelled) →
       r'.pending = ∅ →
       ∃ r'', r'.complete = some r'' ∧ r''.status = Status.RequestCancelled) := by
  constructor
  · intro r h
    simp [Request.complete, Request.hasPendingBuffers, h]
  · intro r bufs r' h hex hpend
    have hc : r'.cancelled = true :=
      completeBuffers_cancelled_mono bufs r r' h (Or.inr hex)
    refine ⟨{ r' with status := Status.RequestCancelled }, ?_, rfl⟩
    simp [Request.complete, Request.hasPendingBuffers, hpend, hc]

/-- Witness for C2: one Success buffer and one Cancelled buffer; the request
ends up Cancelled. -/
theorem complete_spec_witness :
    (Request.completeBuffers (Request.mk 0 0 [] Status.RequestPending false {1, 2})
        [Buffer.mk 1 (some 0) BufferStatus.BufferSuccess (some 0),
         Buffer.mk 2 (some 1) BufferStatus.BufferCancelled (some 0)]
      = some (Request.mk 0 0 [] Status.RequestPending true ∅)) ∧
    (∃ b ∈ [Buffer.mk 1 (some 0) BufferStatus.BufferSuccess (some 0),
            Buffer.mk 2 (some 1) BufferStatus.BufferCancelled (some 0)],
        b.status = BufferStatus.BufferCancelled) ∧
    (Request.mk 0 0 [] Status.RequestPending true ∅).pending = ∅ ∧
    (∃ r'', (Request.mk 0 0 [] Status.RequestPending true ∅).complete = some r''
          ∧ r''.status = Status.RequestCancelled) :=
  ⟨by decide, by decide, by decide,
   complete_spec.2 (Request.mk 0 0 [] Status.RequestPending false {1, 2})
     [Buffer.mk 1 (some 0) BufferStatus.BufferSuccess (some 0),
      Buffer.mk 2 (some 1) BufferStatus.BufferCancelled (some 0)]
     (Request.mk 0 0 [] Status.RequestPending true ∅)
     (by decide) (by decide) (by decide)⟩

theorem findStream_append (s : Nat) (l1 l2 : List (Nat × Buffer)) :
    findStream s (l1 ++ l2) =
      match findStream s l1 with
      | some b => some b
      | none => findStream s l2 := by
  induction l1 with
  | nil => simp [findStream]
  | cons p rest ih =>
    obtain ⟨k, b0⟩ := p
    by_cases hk : k = s
    · simp [findStream, hk]
    · simp [findStream, hk, ih]

/-- Claim C3: `addBuffer` returns `-EINVAL` iff the buffer references no
stream, `-EEXIST` iff the buffer's stream already has a buffer bound in this
request, and 0 (binding the buffer to its stream) otherwise; on either
failure the request is unchanged. -/
theorem addBuffer_spec (r : Request) (b : Buffer) :
    ((r.addBuffer b).1 = -EINVAL ↔ b.stream = none)
  ∧ ((r.addBuffer b).1 = -EEXIST ↔
       ∃ s, b.stream = some s ∧ (r.findBuffer s).isSome = true)
  ∧ ((r.addBuffer b).1 = 0 ↔ ∃ s, b.stream = some s ∧ r.findBuffer s = none)
  ∧ ((r.addBuffer b).1 ≠ 0 → (r.addBuffer b).2 = r)
  ∧ (∀ s, b.stream = some s → r.findBuffer s = none →
       (r.addBuffer b).2 = { r with bufferMap := r.bufferMap ++ [(s, b)] }
     ∧ (r.addBuffer b).2.findBuffer s = some b) := by
  rcases hs : b.stream with _ | s
  · refine ⟨?_, ?_, ?_, ?_, ?_⟩
    · simp [Request.addBuffer, hs]
    · simp [Request.addBuffer, hs, EINVAL, EEXIST]
    · simp [Request.addBuffer, hs, EINVAL]
    · intro _; simp [Request.addBuffer, hs]
    · intro s hcontra; exact absurd hcontra (by simp)
  · rcases hf : findStream s r.bufferMap with _ | bb
    · refine ⟨?_, ?_, ?_, ?_, ?_⟩
      · simp [Request.addBuffer, hs, hf, EINVAL]
      · constructor
        · intro h
          exact absurd (by simpa [Request.addBuffer, hs, hf] using h)
                       (by simp [EEXIST])
        · rintro ⟨s2, hs2, hsome⟩
          injection hs2 with hs2
          subst hs2
          rw [show r.findBuffer s = none from hf] at hsome
          exact absurd hsome (by simp)
      · constructor
        · intro _; exact ⟨s, rfl, hf⟩
        · intro _; simp [Request.addBuffer, hs, hf]
      · intro h; exact absurd (by simp [Request.addBuffer, hs, hf]) h
      · intro s2 hs2 _
        injection hs2 with hs2
        subst hs2
        constructor
        · simp [Request.addBuffer, hs, hf]
        · show findStream s ((r.addBuffer b).2.bufferMap) = some b
          have h2 : (r.addBuffer b).2.bufferMap = r.bufferMap ++ [(s, b)] := by
            simp [Request.addBuffer, hs, hf]
          rw [h2, findStream_append, hf]
          simp [findStream]
    · refine ⟨?_, ?_, ?_, ?_, ?_⟩
      · simp [Request.addBuffer, hs, hf, EINVAL, EEXIST]
      · constructor
        · intro _
          exact ⟨s, rfl, by simp [Request.findBuffer, hf]⟩
        · intro _; simp [Request.addBuffer, hs, hf]
      · constructor
        · intro h
          exact absurd (by simpa [Request.addBuffer, hs, hf] using h)
                       (by simp [EEXIST])
        · rintro ⟨s2, hs2, hnone⟩
          injection hs2 with hs2
          subst hs2
          rw [show r.findBuffer s = some bb from hf] at hnone
          exact absurd hnone (by simp)
      · intro _; simp [Request.addBuffer, hs, hf]
      · intro s2 hs2 hnone
        injection hs2 with hs2
        subst hs2
        rw [show r.findBuffer s = some bb from hf] at hnone
        exact absurd hnone (by simp)

/-- Witness for C3: adding a buffer for a fresh stream succeeds and binds
it. -/
theorem addBuffer_spec_witness :
    ((Buffer.mk 1 (some 3) BufferStatus.BufferSuccess none).stream = some 3) ∧
    ((Request.init 0 0).findBuffer 3 = none) ∧
    (((Request.init 0 0).addBuffer
         (Buffer.mk 1 (some 3) BufferStatus.BufferSuccess none)).2
        = { Request.init 0 0 with
            bufferMap := (Request.init 0 0).bufferMap
              ++ [(3, Buffer.mk 1 (some 3) BufferStatus.BufferSuccess none)] }
     ∧ ((Request.init 0 0).addBuffer
          (Buffer.mk 1 (some 3) BufferStatus.BufferSuccess none)).2.findBuffer 3
        = some (Buffer.mk 1 (some 3) BufferStatus.BufferSuccess none)) :=
  ⟨by decide, by decide,
   (addBuffer_spec (Request.init 0 0)
      (Buffer.mk 1 (some 3) BufferStatus.BufferSuccess none)).2.2.2.2
     3 (by decide) (by decide)⟩

/-- Claim C4: `prepare()` fails with `-EINVAL` iff no buffers are bound, and
then leaves the request (hence the outstanding set) unchanged; otherwise it
returns 0, inserts every bound buffer into the outstanding set and marks
every bound buffer as belonging to this request. -/
theorem prepare_spec (r : Request) :
    ((r.prepare).1 = -EINVAL ↔ r.bufferMap = [])
  ∧ (r.bufferMap = [] → (r.prepare).2 = r)
  ∧ (r.bufferMap ≠ [] →
       (r.prepare).1 = 0
     ∧ (∀ p ∈ r.bufferMap, p.2.id ∈ (r.prepare).2.pending)
     ∧ (r.prepare).2.bufferMap
         = r.bufferMap.map (fun p => (p.1, p.2.setRequest (some r.self)))) := by
  by_cases he : r.bufferMap = []
  · refine ⟨?_, ?_, ?_⟩
    · simp [Request.prepare, he]
    · intro _; simp [Request.prepare, he]
    · intro h; exact absurd he h
  · have hne : r.bufferMap.isEmpty = false := by
      simpa [List.isEmpty_iff] using he
    refine ⟨?_, ?_, ?_⟩
    · simp [Request.prepare, hne, EINVAL, he]
    · intro h; exact absurd h he
    · intro _
      refine ⟨by simp [Request.prepare, hne], ?_, by simp [Request.prepare, hne]⟩
      intro p hp
      have hmap : (r.prepare).2.pending
          = r.pending ∪ (r.bufferMap.map (fun q => q.2.id)).toFinset := by
        simp [Request.prepare, hne]
      rw [hmap]
      refine Finset.mem_union_right _ ?_
      rw [List.mem_toFinset]
      exact List.mem_map.mpr ⟨p, hp, rfl⟩

/-- Witness for C4: preparing a request with one bound buffer inserts it into
the outstanding set and marks it. -/
theorem prepare_spec_witness :
    ((Request.mk 0 0 [(3, Buffer.mk 1 (some 3) BufferStatus.BufferSuccess none)]
        Status.RequestPending false ∅).bufferMap ≠ []) ∧
    (((Request.mk 0 0 [(3, Buffer.mk 1 (some 3) BufferStatus.BufferSuccess none)]
         Status.RequestPending false ∅).prepare).1 = 0
     ∧ (∀ p ∈ (Request.mk 0 0
            [(3, Buffer.mk 1 (some 3) BufferStatus.BufferSuccess none)]
            Status.RequestPending false ∅).bufferMap,
          p.2.id ∈ ((Request.mk 0 0
            [(3, Buffer.mk 1 (some 3) BufferStatus.BufferSuccess none)]
            Status.RequestPending false ∅).prepare).2.pending)
     ∧ ((Request.mk 0 0 [(3, Buffer.mk 1 (some 3) BufferStatus.BufferSuccess none)]
            Status.RequestPending false ∅).prepare).2.bufferMap
         = (Request.mk 0 0 [(3, Buffer.mk 1 (some 3) BufferStatus.BufferSuccess none)]
            Status.RequestPending false ∅).bufferMap.map
             (fun p => (p.1, p.2.setRequest (some (Request.mk 0 0
                [(3, Buffer.mk 1 (some 3) BufferStatus.BufferSuccess none)]
                Status.RequestPending false ∅).self)))) :=
  ⟨by decide,
   (prepare_spec (Request.mk 0 0
      [(3, Buffer.mk 1 (some 3) BufferStatus.BufferSuccess none)]
      Status.RequestPending false ∅)).2.2 (by decide)⟩

theorem addBuffer_status (r : Request) (b : Buffer) :
    ((r.addBuffer b).2).status = r.status := by
  rcases hs : b.stream with _ | s
  · simp [Request.addBuffer, hs]
  · rcases hf : findStream s r.bufferMap with _ | bb
    · simp [Request.addBuffer, hs, hf]
    · simp [Request.addBuffer, hs, hf]

theorem prepare_status (r : Request) :
    ((r.prepare).2).status = r.status := by
  by_cases he : r.bufferMap.isEmpty
  · simp [Request.prepare, he]
  · simp [Request.prepare, he]

theorem applyAdds_status :
    ∀ (adds : List Buffer) (r : Request),
      (Request.applyAdds r adds).status = r.status := by
  intro adds
  induction adds with
  | nil => intro r; rfl
  | cons b bs ih =>
    intro r
    calc (Request.applyAdds (r.addBuffer b).2 bs).status
        = ((r.addBuffer b).2).status := ih (r.addBuffer b).2
      _ = r.status := addBuffer_status r b

theorem completeBuffers_status :
    ∀ (bufs : List Buffer) (r r' : Request),
      r.completeBuffers bufs = some r' → r'.status = r.status := by
  intro bufs
  induction bufs with
  | nil =>
    intro r r' h
    simp [Request.completeBuffers] at h
    subst h; rfl
  | cons b bs ih =>
    intro r r' h
    by_cases hm : b.id ∈ r.pending
    · rw [completeBuffers_cons_eq r b bs hm] at h
      exact ih (r.afterCompleteBuffer b) r' h
    · rw [show r.completeBuffers (b :: bs) = none by
            simp [Request.completeBuffers, completeBuffer_eq_none r b hm]] at h
      exact absurd h (by simp)

theorem complete_status (r r' : Request) (h : r.complete = some r') :
    r'.status = (if r.cancelled then Status.RequestCancelled
                 else Status.RequestComplete) := by
  by_cases hp : r.hasPendingBuffers
  · simp [Request.complete, hp] at h
  · simp [Request.complete, hp] at h
    subst h; rfl

/-- Claim C5: the completion status is only ever changed by `complete()`, to
Complete or Cancelled, and no operation ever returns a request to Pending
(transitions are never reversed); a request with an empty buffer map fails
`prepare()` with `-EINVAL` and, never being queued, stays Pending through its
whole lifecycle; and any non-Pending status produced by the lifecycle came
from `complete()` applied to a Pending request. -/
theorem status_transition_spec :
    (∀ (r : Request) (op : Op) (r' : Request),
        r.step op = some r' → r'.status ≠ r.status →
        op = Op.complete
        ∧ (r'.status = Status.RequestComplete ∨ r'.status = Status.RequestCancelled))
  ∧ (∀ (r : Request) (op : Op) (r' : Request),
        r.step op = some r' → r'.status = Status.RequestPending →
        r.status = Status.RequestPending)
  ∧ (∀ (self cookie : Nat) (adds completions : List Buffer),
        (Request.applyAdds (Request.init self cookie) adds).bufferMap = [] →
        ((Request.applyAdds (Request.init self cookie) adds).prepare).1 = -EINVAL
        ∧ ∀ r', Request.lifecycle self cookie adds completions = some r' →
            r'.status = Status.RequestPending)
  ∧ (∀ (self cookie : Nat) (adds completions : List Buffer) (r' : Request),
        Request.lifecycle self cookie adds completions = some r' →
        r'.status ≠ Status.RequestPending →
        ∃ r2 : Request, r2.status = Status.RequestPending
                      ∧ r2.complete = some r') := by
  have hstep : ∀ (r : Request) (op : Op) (r' : Request),
      r.step op = some r' → op ≠ Op.complete → r'.status = r.status := by
    intro r op r' h hop
    cases op with
    | addBuffer b =>
      simp [Request.step] at h
      subst h; exact addBuffer_status r b
    | prepare =>
      simp [Request.step] at h
      subst h; exact prepare_status r
    | completeBuffer b =>
      by_cases hm : b.id ∈ r.pending
      · simp [Request.step, completeBuffer_eq_some r b hm] at h
        subst h; rfl
      · simp [Request.step, completeBuffer_eq_none r b hm] at h
    | complete => exact absurd rfl hop
  have hcompl : ∀ (r r' : Request), r.complete = some r' →
      r'.status = Status.RequestComplete ∨ r'.status = Status.RequestCancelled := by
    intro r r' h
    rw [complete_status r r' h]
    by_cases hc : r.cancelled
    · simp [hc]
    · simp [hc]
  refine ⟨?_, ?_, ?_, ?_⟩
  · intro r op r' h hne
    cases op with
    | addBuffer b => exact absurd (hstep r (Op.addBuffer b) r' h (by simp)) hne
    | prepare => exact absurd (hstep r Op.prepare r' h (by simp)) hne
    | completeBuffer b => exact absurd (hstep r (Op.completeBuffer b) r' h (by simp)) hne
    | complete => exact ⟨rfl, hcompl r r' h⟩
  · intro r op r' h hp
    by_cases hop : op = Op.complete
    · subst hop
      rcases hcompl r r' h with h2 | h2 <;> rw [hp] at h2 <;> exact absurd h2 (by simp)
    · rw [← hstep r op r' h hop]; exact hp
  · intro self cookie adds completions hbm
    have hpre1 : ((Request.applyAdds (Request.init self cookie) adds).prepare).1
        = -EINVAL := by
      simp [Request.prepare, hbm]
    refine ⟨hpre1, ?_⟩
    intro r' h
    have hpre2 : ((Request.applyAdds (Request.init self cookie) adds).prepare).2
        = Request.applyAdds (Request.init self cookie) adds := by
      simp [Request.prepare, hbm]
    rw [Request.lifecycle, if_pos (by rw [hpre1]; decide)] at h
    injection h with h
    subst h
    rw [hpre2, applyAdds_status]
    rfl
  · intro self cookie adds completions r' h hne
    by_cases hp : ((Request.applyAdds (Request.init self cookie) adds).prepare).1 ≠ 0
    · rw [Request.lifecycle, if_pos hp] at h
      injection h with h
      subst h
      rw [prepare_status, applyAdds_status] at hne
      exact absurd rfl hne
    · rw [Request.lifecycle, if_neg hp] at h
      rcases hcb : ((Request.applyAdds
          (Request.init self cookie) adds).prepare).2.completeBuffers completions
        with _ | r2
      · simp only [hcb] at h
        exact absurd h (by simp)
      · simp only [hcb] at h
        have hr2 : r2.status = Status.RequestPending := by
          rw [completeBuffers_status completions _ r2 hcb, prepare_status,
              applyAdds_status]
          rfl
        by_cases hpend : r2.hasPendingBuffers
        · rw [if_pos hpend] at h
          injection h with h
          subst h
          exact absurd hr2 hne
        · rw [if_neg hpend] at h
          exact ⟨r2, hr2, h⟩

/-- Witness for C5: completing a request with no outstanding buffers moves it
from Pending to Complete. -/
theorem status_transition_witness :
    ((Request.mk 0 0 [] Status.RequestPending false ∅).step Op.complete
       = some (Request.mk 0 0 [] Status.RequestComplete false ∅)) ∧
    ((Request.mk 0 0 [] Status.RequestComplete false ∅).status
       ≠ (Request.mk 0 0 [] Status.RequestPending false ∅).status) ∧
    (Op.complete = Op.complete
     ∧ ((Request.mk 0 0 [] Status.RequestComplete false ∅).status
          = Status.RequestComplete
        ∨ (Request.mk 0 0 [] Status.RequestComplete false ∅).status
          = Status.RequestCancelled)) :=
  ⟨by decide, by decide,
   status_transition_spec.1 (Request.mk 0 0 [] Status.RequestPending false ∅)
     Op.complete (Request.mk 0 0 [] Status.RequestComplete false ∅)
     (by decide) (by decide)⟩

theorem addBuffer_findBuffer (r : Request) (b : Buffer) (s : Nat) :
    ((r.addBuffer b).2).findBuffer s =
      if b.stream = some s then
        (match r.findBuffer s with
         | some x => some x
         | none => some b)
      else r.findBuffer s := by
  rcases hs : b.stream with _ | t
  · simp [Request.addBuffer, hs]
  · rcases hf : findStream t r.bufferMap with _ | bb
    · have hmap : ((r.addBuffer b).2).bufferMap = r.bufferMap ++ [(t, b)] := by
        simp [Request.addBuffer, hs, hf]
      show findStream s ((r.addBuffer b).2).bufferMap = _
      rw [hmap, findStream_append]
      by_cases hts : t = s
      · subst hts
        simp only [if_pos rfl]
        show _ = (match r.findBuffer t with
                  | some x => some x
                  | none => some b)
        rcases hr : findStream t r.bufferMap with _ | x
        · simp [Request.findBuffer, hr, findStream]
        · simp [Request.findBuffer, hr]
      · have hne : ¬(some t = some s) := by
          intro hcontra; injection hcontra with hcontra; exact hts hcontra
        rw [if_neg hne]
        rcases hr : findStream s r.bufferMap with _ | x
        · simp [Request.findBuffer, hr, findStream, hts]
        · simp [Request.findBuffer, hr]
    · have hmap : (r.addBuffer b).2 = r := by
        simp [Request.addBuffer, hs, hf]
      rw [hmap]
      by_cases hts : t = s
      · subst hts
        rw [show r.findBuffer t = some bb from hf]
        simp
      · have hne : ¬(some t = some s) := by
          intro hcontra; injection hcontra with hcontra; exact hts hcontra
        rw [if_neg hne]

theorem applyAdds_findBuffer_none :
    ∀ (adds : List Buffer) (r : Request) (s : Nat),
      (Request.applyAdds r adds).findBuffer s = none ↔
        (r.findBuffer s = none ∧ ∀ b ∈ adds, b.stream ≠ some s) := by
  intro adds
  induction adds with
  | nil =>
    intro r s
    simp [Request.applyAdds]
  | cons b bs ih =>
    intro r s
    show (Request.applyAdds (r.addBuffer b).2 bs).findBuffer s = none ↔ _
    rw [ih (r.addBuffer b).2 s, addBuffer_findBuffer]
    by_cases hbs : b.stream = some s
    · rw [if_pos hbs]
      constructor
      · rintro ⟨hnone, -⟩
        rcases hr : r.findBuffer s with _ | x
        · rw [hr] at hnone; exact absurd hnone (by simp)
        · rw [hr] at hnone; exact absurd hnone (by simp)
      · rintro ⟨-, hall⟩
        exact absurd hbs (hall b (List.mem_cons_self b bs))
    · rw [if_neg hbs]
      simp only [List.forall_mem_cons]
      constructor
      · rintro ⟨h1, h2⟩; exact ⟨h1, hbs, h2⟩
      · rintro ⟨h1, -, h2⟩; exact ⟨h1, h2⟩

theorem applyAdds_findBuffer_some :
    ∀ (adds : List Buffer) (r : Request) (s : Nat) (b : Buffer),
      (Request.applyAdds r adds).findBuffer s = some b →
        r.findBuffer s = some b ∨ (b ∈ adds ∧ b.stream = some s) := by
  intro adds
  induction adds with
  | nil =>
    intro r s b h
    exact Or.inl h
  | cons b2 bs ih =>
    intro r s b h
    have h2 := ih (r.addBuffer b2).2 s b h
    rcases h2 with h2 | ⟨hmem, hst⟩
    · rw [addBuffer_findBuffer] at h2
      by_cases hbs : b2.stream = some s
      · rw [if_pos hbs] at h2
        rcases hr : r.findBuffer s with _ | x
        · rw [hr] at h2
          simp only [Option.some.injEq] at h2
          subst h2
          exact Or.inr ⟨List.mem_cons_self b2 bs, hbs⟩
        · rw [hr] at h2
          simp only [Option.some.injEq] at h2
          subst h2
          exact Or.inl rfl
      · rw [if_neg hbs] at h2
        exact Or.inl h2
    · exact Or.inr ⟨List.mem_cons_of_mem b2 hmem, hst⟩

/-- Claim C10: `findBuffer(s)` returns the buffer bound to `s` by a
successful `addBuffer` — immediately after a successful `addBuffer(b)` on
stream `s`, `findBuffer s` is `b` and every other stream is unchanged — and,
for a request built from a sequence of `addBuffer` calls, `findBuffer s` is
nullptr iff no added buffer named stream `s`, while any returned buffer was
one of the added buffers naming stream `s`. -/
theorem findBuffer_spec :
    (∀ (r : Request) (b : Buffer) (s : Nat),
        b.stream = some s → (r.addBuffer b).1 = 0 →
        ((r.addBuffer b).2.findBuffer s = some b
       ∧ ∀ s2, s2 ≠ s → (r.addBuffer b).2.findBuffer s2 = r.findBuffer s2))
  ∧ (∀ (self cookie : Nat) (adds : List Buffer) (s : Nat),
        (Request.applyAdds (Request.init self cookie) adds).findBuffer s = none
          ↔ ∀ b ∈ adds, b.stream ≠ some s)
  ∧ (∀ (self cookie : Nat) (adds : List Buffer) (s : Nat) (b : Buffer),
        (Request.applyAdds (Request.init self cookie) adds).findBuffer s = some b →
          b ∈ adds ∧ b.stream = some s) := by
  refine ⟨?_, ?_, ?_⟩
  · intro r b s hs hret
    have hf : findStream s r.bufferMap = none := by
      rcases hf2 : findStream s r.bufferMap with _ | bb
      · rfl
      · rw [show (r.addBuffer b).1 = -EEXIST by
              simp [Request.addBuffer, hs, hf2]] at hret
        exact absurd hret (by decide)
    constructor
    · rw [addBuffer_findBuffer, if_pos hs,
          show r.findBuffer s = none from hf]
    · intro s2 hs2
      rw [addBuffer_findBuffer,
          if_neg (by intro hcontra; rw [hs] at hcontra
                     injection hcontra with hcontra; exact hs2 hcontra.symm)]
  · intro self cookie adds s
    rw [applyAdds_findBuffer_none]
    simp [Request.init, Request.findBuffer, findStream]
  · intro self cookie adds s b h
    rcases applyAdds_findBuffer_some adds (Request.init self cookie) s b h
      with h2 | h2
    · exact absurd h2 (by simp [Request.init, Request.findBuffer, findStream])
    · exact h2

/-- Witness for C10: after binding a buffer to stream 3,
`findBuffer 3` returns it and `findBuffer 4` is unchanged. -/
theorem findBuffer_spec_witness :
    ((Buffer.mk 1 (some 3) BufferStatus.BufferSuccess none).stream = some 3) ∧
    (((Request.init 0 0).addBuffer
        (Buffer.mk 1 (some 3) BufferStatus.BufferSuccess none)).1 = 0) ∧
    (((Request.init 0 0).addBuffer
        (Buffer.mk 1 (some 3) BufferStatus.BufferSuccess none)).2.findBuffer 3
       = some (Buffer.mk 1 (some 3) BufferStatus.BufferSuccess none)
     ∧ ∀ s2, s2 ≠ 3 →
        ((Request.init 0 0).addBuffer
          (Buffer.mk 1 (some 3) BufferStatus.BufferSuccess none)).2.findBuffer s2
          = (Request.init 0 0).findBuffer s2) :=
  ⟨by decide, by decide,
   findBuffer_spec.1 (Request.init 0 0)
     (Buffer.mk 1 (some 3) BufferStatus.BufferSuccess none) 3
     (by decide) (by decide)⟩

/-- Claim C7: `send` rejects a payload with `-EINVAL` iff it is empty (no
bytes and no descriptors); a rejected message is never delivered to the peer
(the channel is unchanged); any payload with at least one byte or one
descriptor is not rejected for emptiness. -/
theorem send_empty_spec (ch : Channel) (p : Payload) :
    ((IPCUnixSocket.send ch p).1 = -EINVAL ↔ (p.data = [] ∧ p.fds = []))
  ∧ ((p.data = [] ∧ p.fds = []) → (IPCUnixSocket.send ch p).2 = ch)
  ∧ ((p.data ≠ [] ∨ p.fds ≠ []) → (IPCUnixSocket.send ch p).1 = 0) := by
  by_cases h1 : p.data = []
  · by_cases h2 : p.fds = []
    · refine ⟨?_, ?_, ?_⟩
      · simp [IPCUnixSocket.send, List.isEmpty_iff, h1, h2]
      · intro _; simp [IPCUnixSocket.send, List.isEmpty_iff, h1, h2]
      · rintro (hc | hc)
        · exact absurd h1 hc
        · exact absurd h2 hc
    · refine ⟨?_, ?_, ?_⟩
      · simp [IPCUnixSocket.send, List.isEmpty_iff, h1, h2, EINVAL]
      · rintro ⟨-, hc⟩; exact absurd hc h2
      · intro _; simp [IPCUnixSocket.send, List.isEmpty_iff, h1, h2]
  · refine ⟨?_, ?_, ?_⟩
    · simp [IPCUnixSocket.send, List.isEmpty_iff, h1, EINVAL]
    · rintro ⟨hc, -⟩; exact absurd hc h1
    · intro _; simp [IPCUnixSocket.send, List.isEmpty_iff, h1]

/-- Witness for C7: the empty payload is rejected and not enqueued; a
one-byte payload is accepted. -/
theorem send_empty_spec_witness :
    ((IPCUnixSocket.send (Channel.mk []) (Payload.mk [] [])).1 = -EINVAL
       ↔ ((Payload.mk [] []).data = [] ∧ (Payload.mk [] []).fds = [])) ∧
    ((Payload.mk ([] : List Nat) ([] : List Nat)).data = []
       ∧ (Payload.mk ([] : List Nat) ([] : List Nat)).fds = []) ∧
    ((IPCUnixSocket.send (Channel.mk []) (Payload.mk [] [])).2 = Channel.mk []) ∧
    ((Payload.mk [1] []).data ≠ [] ∨ (Payload.mk [1] ([] : List Nat)).fds ≠ []) ∧
    ((IPCUnixSocket.send (Channel.mk []) (Payload.mk [1] [])).1 = 0) :=
  ⟨(send_empty_spec (Channel.mk []) (Payload.mk [] [])).1,
   ⟨rfl, rfl⟩,
   (send_empty_spec (Channel.mk []) (Payload.mk [] [])).2.1 ⟨rfl, rfl⟩,
   Or.inl (by decide),
   (send_empty_spec (Channel.mk []) (Payload.mk [1] [])).2.2 (Or.inl (by decide))⟩

/-- Claim C8: a non-empty payload whose byte count and descriptor count fit
the u32 header fields is framed and appended to the channel in order by
`send`, and `receive` on the peer yields exactly the same byte sequence and
exactly the same descriptors in the same positional order. -/
theorem send_receive_roundtrip (ch : Channel) (p : Payload)
    (hne : ¬(p.data = [] ∧ p.fds = []))
    (hlen : p.data.length < u32) (hfds : p.fds.length < u32) :
    (IPCUnixSocket.send ch p).1 = 0
  ∧ (IPCUnixSocket.send ch p).2.queue = ch.queue ++ [framePayload p]
  ∧ (ch.queue = [] →
       IPCUnixSocket.receive (IPCUnixSocket.send ch p).2
         = some (p, Channel.mk [])) := by
  have hsend : IPCUnixSocket.send ch p = (0, ⟨ch.queue ++ [framePayload p]⟩) := by
    rcases hd : p.data with _ | ⟨x, xs⟩
    · rcases hf : p.fds with _ | ⟨y, ys⟩
      · exact absurd ⟨hd, hf⟩ hne
      · simp [IPCUnixSocket.send, hd, hf]
    · simp [IPCUnixSocket.send, hd]
  refine ⟨by rw [hsend], by rw [hsend], ?_⟩
  intro hq
  rw [hsend]
  show IPCUnixSocket.receive ⟨ch.queue ++ [framePayload p]⟩ = _
  rw [hq]
  show IPCUnixSocket.receive ⟨[framePayload p]⟩ = _
  have hhdr : (framePayload p).lengthHeader = (framePayload p).bytes.length
            ∧ (framePayload p).numFdsHeader = (framePayload p).ancillaryFds.length := by
    constructor
    · show p.data.length % u32 = p.data.length
      exact Nat.mod_eq_of_lt hlen
    · show p.fds.length % u32 = p.fds.length
      exact Nat.mod_eq_of_lt hfds
  simp only [IPCUnixSocket.receive, if_pos (And.intro hhdr.1 hhdr.2),
             Option.some.injEq, Prod.mk.injEq]
  exact ⟨rfl, trivial⟩

/-- Witness for C8: the test payload bytes `[1, 2, 3, 4, 5]` with two
descriptors round-trips bit-exact with the descriptors in order. -/
theorem send_receive_roundtrip_witness :
    (¬((Payload.mk [1, 2, 3, 4, 5] [10, 11]).data = []
       ∧ (Payload.mk [1, 2, 3, 4, 5] [10, 11]).fds = [])) ∧
    ((Payload.mk [1, 2, 3, 4, 5] [10, 11]).data.length < u32) ∧
    ((Payload.mk [1, 2, 3, 4, 5] [10, 11]).fds.length < u32) ∧
    ((Channel.mk [] : Channel).queue = [] →
       IPCUnixSocket.receive
           (IPCUnixSocket.send (Channel.mk []) (Payload.mk [1, 2, 3, 4, 5] [10, 11])).2
         = some (Payload.mk [1, 2, 3, 4, 5] [10, 11], Channel.mk [])) :=
  ⟨by decide, by decide, by decide,
   (send_receive_roundtrip (Channel.mk []) (Payload.mk [1, 2, 3, 4, 5] [10, 11])
      (by decide) (by decide) (by decide)).2.2⟩

/-- Claim C9: a successfully started process that terminates raises exactly
one `finished` event; a normal exit with code `c` is reported as
`NormalExit c` verbatim and an exit by signal as the distinct `SignalExit`;
further termination notifications raise nothing more, and no event is ever
raised for a process whose start failed. -/
theorem process_finished_spec (o o2 : ChildOutcome) (c s : Int) :
    (((Process.mkNew.start true).2.reap o).finishedEvents = [outcomeStatus o])
  ∧ (outcomeStatus (ChildOutcome.exited c) = ExitStatus.NormalExit c)
  ∧ (outcomeStatus (ChildOutcome.signalled s) = ExitStatus.SignalExit s)
  ∧ (ExitStatus.NormalExit c ≠ ExitStatus.SignalExit s)
  ∧ ((((Process.mkNew.start true).2.reap o).reap o2)
       = ((Process.mkNew.start true).2.reap o))
  ∧ (((Process.mkNew.start false).2.reap o).finishedEvents = []) := by
  refine ⟨?_, rfl, rfl, by simp, ?_, ?_⟩
  · rfl
  · rfl
  · rfl

end LibCamera
